import Mathlib

/-!
Verification development for the brick-planning core of a distributed storage
cluster manager (package `bricksplanner`, file `planner.go`).

The Go code is shallowly embedded as follows.

* Go `uint64` values (sizes) are modelled as `Nat`; where the source performs a
  `uint64` multiplication whose overflow can be observable, the wrap is written
  explicitly as `% 2 ^ 64`.  Go `int` values (the various counts) are modelled
  as `Int`; the explicit conversions `uint(x)` / `uint64(x)` and `int(x)` of the
  source are modelled by `goUint64` and `uintToInt` (two's-complement
  reinterpretation at width 64).
* The request structure `api.VolCreateReq` is mutated in place by the Go code;
  each embedded stage therefore returns the updated request together with an
  optional error string (the Go functions return `error`, created with
  `errors.New` on fixed message strings).
* `float64` arithmetic appears in one spot only: the snapshot-reserve factor,
  used as `uint64(float64(size) * req.SnapshotReserveFactor)`.  The factor is
  modelled as the induced function on sizes (`SnapshotReserveFactor : Nat → Nat`);
  none of the verified claims depends on its numeric behaviour.
* External collaborators that are not part of the provided sources are kept
  parametric in a `Backend` structure: `config.GetString "rundir"`,
  `lvmutils.NormalizeSize`, `lvmutils.GetPoolMetadataSize` and
  `volume.GetRedundancy` (the spec fixes no formula for any of them).
  `path.Join` is modelled as string concatenation (no path cleaning is relevant
  to any claim).
* `GetAvailableVgs` is external I/O; its result (the device-inventory snapshot)
  is taken as an input list.  Per the spec (§3, §4.3) the working copy of a
  device record is mutated during one planning call (available size
  decremented, used flag set), i.e. the slice has pointer semantics; this is
  modelled by threading the updated list through the allocator.
-/

/-- `gutils.MiB`. -/
def MiB : Nat := 1024 * 1024

/-- `gutils.GiB`. -/
def GiB : Nat := 1024 * MiB

/-- `minBrickSize = 20 * utils.MiB` (planner.go line 18). -/
def minBrickSize : Nat := 20 * MiB

/-- `defaultMaxLoopBrickSize = 100 * utils.GiB` (planner.go line 19). -/
def defaultMaxLoopBrickSize : Nat := 100 * GiB

/-- `api.ProvisionerTypeLoop`. -/
def ProvisionerTypeLoop : String := "loop"

/-- Go conversion `uint(x)` / `uint64(x)` of a 64-bit signed value:
two's-complement reinterpretation. -/
def goUint64 (x : Int) : Nat := (x % (2 ^ 64 : Int)).toNat

/-- Go conversion `int(n)` of a `uint64` value: two's-complement
reinterpretation at width 64. -/
def uintToInt (n : Nat) : Int :=
  if n % 2 ^ 64 < 2 ^ 63 then ((n % 2 ^ 64 : Nat) : Int)
  else ((n % 2 ^ 64 : Nat) : Int) - 2 ^ 64

/-- `api.BrickReq`: one brick of the produced layout.  The placement fields
(`PeerID`, `VgName`, `RootDevice`, `DevicePath`) default to the Go zero value
`""` and are filled only by the allocator. -/
structure BrickReq where
  type : String
  Path : String
  BrickDirSuffix : String
  TpName : String
  LvName : String
  Size : Nat
  TpSize : Nat
  TpMetadataSize : Nat
  TotalSize : Nat
  FsType : String
  MntOpts : String
  PeerID : String := ""
  VgName : String := ""
  RootDevice : String := ""
  DevicePath : String := ""

/-- `api.SubvolReq`: one subvolume (redundancy group) of the layout. -/
structure SubvolReq where
  type : String
  Bricks : List BrickReq
  ReplicaCount : Int
  ArbiterCount : Int
  DisperseCount : Int

/-- `api.VolCreateReq` (the fields read or written by the planner).
`SnapshotReserveFactor` is a Go `float64`; it is modelled as the function
`size ↦ uint64(float64(size) * factor)` it induces on brick sizes. -/
structure VolCreateReq where
  Name : String
  Size : Nat
  ReplicaCount : Int
  ArbiterCount : Int
  DisperseCount : Int
  DisperseDataCount : Int
  DisperseRedundancyCount : Int
  DistributeCount : Int
  MaxBrickSize : Nat
  ProvisionerType : String
  SnapshotReserveFactor : Nat → Nat
  SubvolZonesOverlap : Bool
  SubvolType : String := ""
  Subvols : List SubvolReq := []

/-- A device (volume group) record of the inventory snapshot returned by
`GetAvailableVgs`: peer id, name, zone, backing device, available size, used
flag. -/
structure Vg where
  PeerID : String
  Name : String
  Zone : String
  Device : String
  AvailableSize : Nat
  Used : Bool

/-- External collaborators of the planner that are not part of the provided
sources and for which the spec fixes no formula; kept parametric. -/
structure Backend where
  rundir : String
  NormalizeSize : Nat → Nat
  GetPoolMetadataSize : Nat → Nat
  GetRedundancy : Nat → Int

/-- `handleReplicaSubvolReq` (planner.go lines 22-36). -/
def handleReplicaSubvolReq (req : VolCreateReq) : VolCreateReq × Option String :=
  if req.ReplicaCount < 2 then (req, none)
  else if req.ReplicaCount > 3 then (req, some ("invalid Replica Count"))
  else
    let req := { req with SubvolType := "replicate" }
    if req.ArbiterCount > 1 then (req, some ("invalid Arbiter Count"))
    else (req, none)

/-- `handleDisperseSubvolReq` (planner.go lines 38-67).  `volume.GetRedundancy`
is applied to `uint(req.DisperseCount)`, i.e. to `goUint64` of the count. -/
def handleDisperseSubvolReq (B : Backend) (req : VolCreateReq) :
    VolCreateReq × Option String :=
  if req.DisperseCount = 0 ∧ req.DisperseDataCount = 0 ∧ req.DisperseRedundancyCount = 0 then
    (req, none)
  else
    let req := { req with SubvolType := "disperse" }
    if req.DisperseDataCount > 0 ∧ req.DisperseRedundancyCount ≤ 0 then
      (req, some ("disperse redundancy count is required"))
    else
      let req := if req.DisperseDataCount > 0 then
          { req with DisperseCount := req.DisperseDataCount + req.DisperseRedundancyCount }
        else req
      let req := if req.DisperseRedundancyCount ≤ 0 then
          { req with DisperseRedundancyCount := B.GetRedundancy (goUint64 req.DisperseCount) }
        else req
      let req := if req.DisperseDataCount ≤ 0 then
          { req with DisperseDataCount := req.DisperseCount - req.DisperseRedundancyCount }
        else req
      if 2 * req.DisperseRedundancyCount ≥ req.DisperseCount then
        (req, some ("invalid redundancy count"))
      else (req, none)

/-- Max-brick-size validation and loop-back defaulting (planner.go lines
91-105, the two `if` statements executed after the topology handlers). -/
def checkMaxBrickSize (req : VolCreateReq) : VolCreateReq × Option String :=
  if req.MaxBrickSize > 0 ∧ req.MaxBrickSize < minBrickSize then
    (req, some ("invalid max-brick-size, Minimum size required is " ++ toString minBrickSize))
  else if req.ProvisionerType == ProvisionerTypeLoop then
    if req.MaxBrickSize > defaultMaxLoopBrickSize then
      (req, some ("invalid max-brick-size, max brick size supported for loop back bricks is "
        ++ toString defaultMaxLoopBrickSize))
    else if req.MaxBrickSize = 0 then
      ({ req with MaxBrickSize := defaultMaxLoopBrickSize }, none)
    else (req, none)
  else (req, none)

/-- Distribute-count derivation (planner.go lines 107-121).  The source
multiplies two `uint64` values (`req.MaxBrickSize * uint64(req.DisperseDataCount)`,
written with its `% 2 ^ 64` wrap) and then divides; a zero divisor makes the Go
program fail with a runtime divide-by-zero, modelled as an error outcome. -/
def deriveDistributeCount (req : VolCreateReq) : VolCreateReq × Option String :=
  if req.MaxBrickSize > 0 ∧ req.Size > req.MaxBrickSize then
    let maxSubvolSize := if req.DisperseDataCount > 0 then
        (req.MaxBrickSize * goUint64 req.DisperseDataCount) % 2 ^ 64
      else req.MaxBrickSize
    if maxSubvolSize = 0 then (req, some ("runtime error: integer divide by zero"))
    else
      let dc := uintToInt (req.Size / maxSubvolSize)
      let dc := if req.Size % maxSubvolSize > 0 then dc + 1 else dc
      ({ req with DistributeCount := dc }, none)
  else (req, none)

/-- `numSubvols` (planner.go lines 123-126). -/
def numSubvolsOf (distributeCount : Int) : Int :=
  if distributeCount > 0 then distributeCount else 1

/-- `subvolSize` (planner.go lines 129-132): the requested size, divided by
`uint64(numSubvols)` when there is more than one subvolume. -/
def subvolSizeOf (size : Nat) (numSubvols : Int) : Nat :=
  if numSubvols > 1 then size / goUint64 numSubvols else size

/-- The per-subvolume layout strategy interface (`Init` is modelled by passing
the request and the subvolume size to the lookup; `BricksCount`, `BrickSize`
and `BrickType` are the remaining methods). -/
structure SubvolPlanner where
  BricksCount : Nat
  BrickSize : Nat → Nat
  BrickType : Nat → String

/-- Modelled from the spec: the `subvolPlanners` map and the per-topology
strategies (distribute, replicate, disperse) are not part of the provided
sources.  Per the spec (§4.2): the strategies are closed variants; replicate
emits N equal-size bricks; disperse emits disperse-count bricks sized
subvolSize / disperse-data-count, with redundancy bricks flagged as a parity
role; distribute emits a single brick of the subvolume size. -/
def subvolPlanners (req : VolCreateReq) (subvolSize : Nat) :
    String → Option SubvolPlanner
  | "distribute" => some ⟨1, fun _ => subvolSize, fun _ => "brick"⟩
  | "replicate" => some ⟨req.ReplicaCount.toNat, fun _ => subvolSize, fun _ => "brick"⟩
  | "disperse" => some ⟨req.DisperseCount.toNat,
      fun _ => subvolSize / req.DisperseDataCount.toNat,
      fun j => if j < req.DisperseDataCount.toNat then "brick" else "parity"⟩
  | _ => none

/-- Construction of one `api.BrickReq` (planner.go lines 155-176), for
subvolume index `i` and brick index `j` (0-based; the generated names use
1-based indices). -/
def mkBrick (B : Backend) (req : VolCreateReq) (bricksMountRoot : String)
    (i j eachBrickSize : Nat) (brickType : String) : BrickReq :=
  let eachBrickTpSize := req.SnapshotReserveFactor eachBrickSize
  let mntopts := if req.ProvisionerType == ProvisionerTypeLoop then
      "rw,inode64,noatime,nouuid,discard" ++ ",loop"
    else "rw,inode64,noatime,nouuid,discard"
  let tpsize := B.NormalizeSize eachBrickTpSize
  let tpmsize := B.GetPoolMetadataSize eachBrickTpSize
  { type := brickType
    Path := bricksMountRoot ++ "/" ++ req.Name ++ "/subvol" ++ toString (i + 1)
      ++ "/brick" ++ toString (j + 1) ++ "/brick"
    BrickDirSuffix := "/brick"
    TpName := "tp_" ++ req.Name ++ "_s" ++ toString (i + 1) ++ "_b" ++ toString (j + 1)
    LvName := "brick_" ++ req.Name ++ "_s" ++ toString (i + 1) ++ "_b" ++ toString (j + 1)
    Size := B.NormalizeSize eachBrickSize
    TpSize := tpsize
    TpMetadataSize := tpmsize
    TotalSize := tpsize + tpmsize
    FsType := "xfs"
    MntOpts := mntopts }

/-- The inner brick loop of `getBricksLayout` (planner.go lines 148-177):
builds the bricks of subvolume `i` for indices `j, j+1, …` (`n` remaining),
failing as the source does when a computed brick size is below the minimum. -/
def buildSubvolBricks (B : Backend) (req : VolCreateReq) (bricksMountRoot : String)
    (planner : SubvolPlanner) (i : Nat) : Nat → Nat → Except String (List BrickReq)
  | 0, _ => .ok []
  | n + 1, j =>
    let eachBrickSize := planner.BrickSize j
    if eachBrickSize < minBrickSize then .error ("brick size is too small")
    else
      match buildSubvolBricks B req bricksMountRoot planner i n (j + 1) with
      | .error e => .error e
      | .ok rest =>
        .ok (mkBrick B req bricksMountRoot i j eachBrickSize (planner.BrickType j) :: rest)

/-- The outer subvolume loop of `getBricksLayout` (planner.go lines 147-186):
builds `n` subvolumes starting at index `i`. -/
def buildSubvols (B : Backend) (req : VolCreateReq) (bricksMountRoot : String)
    (planner : SubvolPlanner) : Nat → Nat → Except String (List SubvolReq)
  | 0, _ => .ok []
  | n + 1, i =>
    match buildSubvolBricks B req bricksMountRoot planner i planner.BricksCount 0 with
    | .error e => .error e
    | .ok bricks =>
      match buildSubvols B req bricksMountRoot planner n (i + 1) with
      | .error e => .error e
      | .ok rest =>
        .ok ({ type := req.SubvolType
               Bricks := bricks
               ReplicaCount := req.ReplicaCount
               ArbiterCount := req.ArbiterCount
               DisperseCount := req.DisperseCount } :: rest)

/-- Sequencing of the in-place-mutating stages of `getBricksLayout`: a failed
stage aborts the whole call with the mutated request (the Go
`if err != nil { return nil, err }` pattern). -/
def stageThen (x : VolCreateReq × Option String)
    (f : VolCreateReq → VolCreateReq × Except String (List SubvolReq)) :
    VolCreateReq × Except String (List SubvolReq) :=
  match x with
  | (r, some e) => (r, Except.error e)
  | (r, none) => f r

/-- `getBricksLayout` (planner.go lines 72-189): sets the default subvolume
type, runs the replicate and disperse handlers, validates the max brick size,
derives the distribute count, and builds the subvolume/brick layout through
the per-type strategy. -/
def getBricksLayout (B : Backend) (req0 : VolCreateReq) :
    VolCreateReq × Except String (List SubvolReq) :=
  let bricksMountRoot := B.rundir ++ "/bricks"
  stageThen (handleReplicaSubvolReq { req0 with SubvolType := "distribute" }) fun req =>
  stageThen (handleDisperseSubvolReq B req) fun req =>
  stageThen (checkMaxBrickSize req) fun req =>
  stageThen (deriveDistributeCount req) fun req =>
    let numSubvols := numSubvolsOf req.DistributeCount
    let subvolSize := subvolSizeOf req.Size numSubvols
    match subvolPlanners req subvolSize req.SubvolType with
    | none => (req, Except.error ("subvolume type not supported"))
    | some planner =>
      (req, buildSubvols B req bricksMountRoot planner numSubvols.toNat 0)

/-- Placement of one brick on a chosen device (planner.go lines 225-231 and
255-261): fills the placement fields; for the loop-back provisioner the device
path is an image file under the thin-pool name. -/
def placeBrick (loopProv : Bool) (b : BrickReq) (vg : Vg) : BrickReq :=
  { b with
    PeerID := vg.PeerID
    VgName := vg.Name
    RootDevice := vg.Device
    DevicePath := if loopProv then vg.Device ++ "/" ++ b.TpName ++ "/" ++ b.LvName ++ ".img"
      else "/dev/" ++ vg.Name ++ "/" ++ b.LvName }

/-- The inner device scan of the allocator (planner.go lines 222-239 and
252-269): first device with enough available space, an unused zone, and — when
`fresh` (pass 1) — not yet used.  Returns the chosen device (its state before
the update, as read for the placement fields) and the updated inventory. -/
def allocLoop (fresh : Bool) (need : Nat) (zones : List String) :
    List Vg → Option (Vg × List Vg)
  | [] => none
  | vg :: rest =>
    if vg.AvailableSize ≥ need ∧ vg.Zone ∉ zones ∧ (fresh = true → vg.Used = false) then
      some (vg, { vg with AvailableSize := vg.AvailableSize - need, Used := true } :: rest)
    else
      match allocLoop fresh need zones rest with
      | none => none
      | some (c, rest') => some (c, vg :: rest')

/-- Result of one allocation pass over a list of bricks. -/
structure PassResult where
  bricks : List BrickReq
  vgs : List Vg
  zones : List String
  count : Nat
  chosen : List Vg

/-- One allocation pass (planner.go lines 221-240 for pass 1 with
`fresh = true`, lines 250-270 for pass 2 with `fresh = false`): each brick in
order scans the inventory; on a match the brick is placed, the zone recorded,
the device updated and the allocation counter incremented.  `chosen` collects
the chosen devices in brick order (the loop-local `vg` of the source). -/
def allocPass (loopProv fresh : Bool) :
    List BrickReq → List Vg → List String → PassResult
  | [], vgs, zones => ⟨[], vgs, zones, 0, []⟩
  | b :: bs, vgs, zones =>
    match allocLoop fresh b.TotalSize zones vgs with
    | none =>
      let r := allocPass loopProv fresh bs vgs zones
      ⟨b :: r.bricks, r.vgs, r.zones, r.count, r.chosen⟩
    | some (vg, vgs') =>
      let r := allocPass loopProv fresh bs vgs' (vg.Zone :: zones)
      ⟨placeBrick loopProv b vg :: r.bricks, r.vgs, r.zones, r.count + 1, vg :: r.chosen⟩

/-- Result of allocating one subvolume. -/
structure SubvolAllocResult where
  bricks : List BrickReq
  vgs : List Vg
  zones : List String
  chosen : List Vg

/-- Allocation of one subvolume's bricks (planner.go lines 220-275): pass 1
over all bricks considering only fresh devices; if not all bricks were placed,
pass 2 over the bricks from index `numBricksAllocated` on, reusing devices;
the subvolume fails unless the total count reaches the number of bricks. -/
def allocSubvol (loopProv : Bool) (bricks : List BrickReq) (vgs : List Vg)
    (zones : List String) : Option SubvolAllocResult :=
  let r1 := allocPass loopProv true bricks vgs zones
  if r1.count = bricks.length then some ⟨r1.bricks, r1.vgs, r1.zones, r1.chosen⟩
  else
    let r2 := allocPass loopProv false (r1.bricks.drop r1.count) r1.vgs r1.zones
    if r1.count + r2.count = bricks.length then
      some ⟨r1.bricks.take r1.count ++ r2.bricks, r2.vgs, r2.zones, r1.chosen ++ r2.chosen⟩
    else none

/-- The zone-used set a subvolume starts from (planner.go lines 213-215): reset
to empty exactly when the zone-overlap flag is set, carried over otherwise. -/
def subvolStartZones (overlap : Bool) (zones : List String) : List String :=
  if overlap then [] else zones

/-- The allocator loop over all subvolumes (planner.go lines 209-276).  The
fourth component collects, per subvolume, the devices chosen for its bricks. -/
def allocSubvols (loopProv overlap : Bool) :
    List SubvolReq → List Vg → List String →
    Option (List SubvolReq × List Vg × List String × List (List Vg))
  | [], vgs, zones => some ([], vgs, zones, [])
  | sv :: svs, vgs, zones =>
    let zones0 := subvolStartZones overlap zones
    match allocSubvol loopProv sv.Bricks vgs zones0 with
    | none => none
    | some r =>
      match allocSubvols loopProv overlap svs r.vgs r.zones with
      | none => none
      | some (svs', vgs', zones', chosens) =>
        some ({ sv with Bricks := r.bricks } :: svs', vgs', zones', r.chosen :: chosens)

/-- `PlanBricks` (planner.go lines 192-280).  The device inventory snapshot
(the result of the external `GetAvailableVgs`) is an input; an empty inventory
fails immediately; then the layout is generated and the two-pass zone-aware
allocation is run; only on full success is the request's `Subvols` field set. -/
def PlanBricks (B : Backend) (req : VolCreateReq) (availableVgs : List Vg) :
    VolCreateReq × Option String :=
  if availableVgs.length = 0 then
    (req, some ("no devices registered or available for allocating bricks"))
  else
    match getBricksLayout B req with
    | (req1, .error e) => (req1, some e)
    | (req1, .ok subvols) =>
      match allocSubvols (req1.ProvisionerType == ProvisionerTypeLoop)
          req1.SubvolZonesOverlap subvols availableVgs [] with
      | none => (req1, some ("no space available or all the devices are not registered"))
      | some out => ({ req1 with Subvols := out.1 }, none)

/-- Total free space of an inventory snapshot. -/
def totalFree (vgs : List Vg) : Nat := (vgs.map Vg.AvailableSize).sum

/-- Total space a plan requires: the sum of all brick total sizes. -/
def requiredTotal (svs : List SubvolReq) : Nat :=
  (svs.map (fun sv => (sv.Bricks.map BrickReq.TotalSize).sum)).sum

/-- Non-empty identification fields of a device record. -/
def VgOk (vg : Vg) : Prop := vg.PeerID ≠ "" ∧ vg.Name ≠ "" ∧ vg.Device ≠ ""

/-- Non-empty placement fields of a brick. -/
def PlacedOk (b : BrickReq) : Prop :=
  b.PeerID ≠ "" ∧ b.VgName ≠ "" ∧ b.RootDevice ≠ "" ∧ b.DevicePath ≠ ""

/-- The per-subvolume capacity in the spec's words: max-brick-size ×
disperse-data-count for disperse volumes (positive disperse-data count),
max-brick-size otherwise. -/
def specSubvolCapacity (req : VolCreateReq) : Nat :=
  if 0 < req.DisperseDataCount then req.MaxBrickSize * req.DisperseDataCount.toNat
  else req.MaxBrickSize

/-- Ceiling division, in the spec's words (`ceil(a / b)` on naturals). -/
def specCeilDiv (a b : Nat) : Nat := (a + b - 1) / b

/-- A backend instance with simple total functions, used for concrete
evaluations. -/
def backend0 : Backend :=
  { rundir := "/var/run/glusterd2"
    NormalizeSize := fun n => n
    GetPoolMetadataSize := fun _ => 0
    GetRedundancy := fun _ => 1 }

/-- A baseline concrete request, used for concrete evaluations. -/
def baseReq : VolCreateReq :=
  { Name := "v1"
    Size := 0
    ReplicaCount := 0
    ArbiterCount := 0
    DisperseCount := 0
    DisperseDataCount := 0
    DisperseRedundancyCount := 0
    DistributeCount := 0
    MaxBrickSize := 0
    ProvisionerType := "lvm"
    SnapshotReserveFactor := fun n => n
    SubvolZonesOverlap := false }

/-- A concrete request (20 MiB distribute volume) whose planning succeeds on
the concrete inventory below; used for concrete evaluations. -/
def reqW : VolCreateReq := { baseReq with Size := 20 * MiB }

/-- A concrete single-device inventory entry; used for concrete
evaluations. -/
def vg0 : Vg :=
  { PeerID := "peer1"
    Name := "vg1"
    Zone := "z1"
    Device := "/dev/sda"
    AvailableSize := 20 * MiB
    Used := false }

/-- Concrete layout evaluation; used for concrete evaluations. -/
def layoutW : VolCreateReq × Except String (List SubvolReq) :=
  getBricksLayout backend0 reqW

/-- The subvolume list of the concrete layout evaluation. -/
def svsW : List SubvolReq :=
  match layoutW.2 with
  | Except.ok s => s
  | Except.error _ => []

/-- The concrete planning evaluation; used for concrete evaluations. -/
def planW : VolCreateReq × Option String := PlanBricks backend0 reqW [vg0]

/-- A concrete already-sized brick; used for concrete allocator
evaluations. -/
def brick0 : BrickReq :=
  { type := "brick"
    Path := "/bricks/brick"
    BrickDirSuffix := "/brick"
    TpName := "tp_v1_s1_b1"
    LvName := "brick_v1_s1_b1"
    Size := 20 * MiB
    TpSize := 20 * MiB
    TpMetadataSize := 0
    TotalSize := 20 * MiB
    FsType := "xfs"
    MntOpts := "rw" }

/-- A concrete one-brick subvolume; used for concrete allocator
evaluations. -/
def sv0 : SubvolReq :=
  { type := "distribute"
    Bricks := [brick0]
    ReplicaCount := 0
    ArbiterCount := 0
    DisperseCount := 0 }

/-- The concrete allocator evaluation with the zone-overlap flag set. -/
def outW : List SubvolReq × List Vg × List String × List (List Vg) :=
  (allocSubvols false true [sv0] [vg0] []).getD ([], [], [], [])

/-- The first subvolume of the concrete plan. -/
def svW0 : SubvolReq := planW.1.Subvols.getD 0 sv0

/-- The first brick of the first subvolume of the concrete plan. -/
def brickW0 : BrickReq := svW0.Bricks.getD 0 brick0

/-- The first subvolume of the concrete layout. -/
def svW6 : SubvolReq := svsW.getD 0 sv0

/-- The first brick of the first subvolume of the concrete layout. -/
def brickW6 : BrickReq := svW6.Bricks.getD 0 brick0

/-- A concrete in-scope disperse request whose per-subvolume capacity product
overflows `uint64`: max brick size 2^62 (validated, above the minimum),
disperse-data 4 with redundancy 1 (passes resolution), requested size
2^62 + 1 (exceeds the max brick size).  The source's `uint64` product at
planner.go line 115 wraps to 0 and the division at line 117 fails. -/
def reqOv : VolCreateReq :=
  { baseReq with
    Size := 2 ^ 62 + 1
    MaxBrickSize := 2 ^ 62
    DisperseDataCount := 4
    DisperseRedundancyCount := 1 }

/-- Rewriting of ceiling division by cases on divisibility (helper). -/
theorem specCeilDiv_eq_div_add (a b : Nat) (hb : 0 < b) :
    specCeilDiv a b = a / b + (if 0 < a % b then 1 else 0) := by
  have hqr := Nat.div_add_mod a b
  have hrb := Nat.mod_lt a hb
  unfold specCeilDiv
  rcases Nat.eq_zero_or_pos (a % b) with h | h
  · have h1 : a + b - 1 = (b - 1) + b * (a / b) := by omega
    rw [h1, Nat.add_mul_div_left _ _ hb, Nat.div_eq_of_lt (by omega)]
    simp [h]
  · have h1 : a + b - 1 = (a % b - 1) + b * (a / b + 1) := by
      rw [Nat.mul_add, Nat.mul_one]; omega
    rw [h1, Nat.add_mul_div_left _ _ hb, Nat.div_eq_of_lt (by omega)]
    simp [h]

/-- C2 counterexample: a request with replica count 0 and arbiter count 2
resolves without error, although the claim says any arbiter count above one
fails with a ValidationError. -/
theorem c2_counterexample :
    ({ baseReq with ArbiterCount := 2 } : VolCreateReq).ArbiterCount > 1 ∧
      (handleReplicaSubvolReq { baseReq with ArbiterCount := 2 }).2 = none := by
  exact ⟨by decide, rfl⟩

/-- C2 (amended): replica count below two leaves the request unchanged and
succeeds (the arbiter count is not examined); replica count in [2,3] sets the
type to replicate and then fails exactly when the arbiter count exceeds one;
replica count above three fails. -/
theorem c2_replica_resolution (req : VolCreateReq) :
    (req.ReplicaCount < 2 → handleReplicaSubvolReq req = (req, none)) ∧
    (2 ≤ req.ReplicaCount → req.ReplicaCount ≤ 3 → req.ArbiterCount ≤ 1 →
      handleReplicaSubvolReq req = ({ req with SubvolType := "replicate" }, none)) ∧
    (2 ≤ req.ReplicaCount → req.ReplicaCount ≤ 3 → 1 < req.ArbiterCount →
      handleReplicaSubvolReq req =
        ({ req with SubvolType := "replicate" }, some ("invalid Arbiter Count"))) ∧
    (3 < req.ReplicaCount →
      handleReplicaSubvolReq req = (req, some ("invalid Replica Count"))) := by
  refine ⟨fun h1 => ?_, fun h1 h2 h3 => ?_, fun h1 h2 h3 => ?_, fun h1 => ?_⟩
  · simp [handleReplicaSubvolReq, h1]
  · simp [handleReplicaSubvolReq, show ¬req.ReplicaCount < 2 by omega,
      show ¬req.ReplicaCount > 3 by omega, show ¬req.ArbiterCount > 1 by omega]
  · simp [handleReplicaSubvolReq, show ¬req.ReplicaCount < 2 by omega,
      show ¬req.ReplicaCount > 3 by omega, show req.ArbiterCount > 1 by omega]
  · simp [handleReplicaSubvolReq, show ¬req.ReplicaCount < 2 by omega,
      show req.ReplicaCount > 3 by omega]

/-- C2 witness: the amended statement evaluated on concrete requests. -/
theorem c2_replica_resolution_witness :
    handleReplicaSubvolReq { baseReq with ReplicaCount := 3 } =
      ({ baseReq with ReplicaCount := 3, SubvolType := "replicate" }, none) :=
  (c2_replica_resolution { baseReq with ReplicaCount := 3 }).2.1
    (by decide) (by decide) (by decide)

/-- The final redundancy check of the disperse handler, isolated (helper). -/
theorem disperse_final_check (r req' : VolCreateReq)
    (h : (if 2 * r.DisperseRedundancyCount ≥ r.DisperseCount then
        (r, some ("invalid redundancy count")) else (r, none)) = (req', none)) :
    2 * req'.DisperseRedundancyCount < req'.DisperseCount := by
  split_ifs at h with hg
  · simp at h
  · injection h with hA hB
    subst hA
    omega

/-- C4: whenever the disperse rule is triggered (some disperse count non-zero)
and resolution succeeds, the resolved counts satisfy
2 × disperse-redundancy < disperse-count — for any default-redundancy
function; the converse (failure when the resolved counts violate the bound) is
the contrapositive of this statement. -/
theorem c4_disperse_redundancy_bound (B : Backend) (req req' : VolCreateReq)
    (htrig : ¬(req.DisperseCount = 0 ∧ req.DisperseDataCount = 0 ∧
      req.DisperseRedundancyCount = 0))
    (h : handleDisperseSubvolReq B req = (req', none)) :
    2 * req'.DisperseRedundancyCount < req'.DisperseCount := by
  unfold handleDisperseSubvolReq at h
  rw [if_neg htrig] at h
  simp only [] at h
  split at h
  · simp at h
  · exact disperse_final_check _ _ h

/-- C4 witness: disperse-data 2 with redundancy 1 resolves successfully and
the bound holds on the resolved counts. -/
theorem c4_disperse_redundancy_bound_witness :
    2 * ((handleDisperseSubvolReq backend0
        { baseReq with DisperseDataCount := 2, DisperseRedundancyCount := 1 }).1
        |>.DisperseRedundancyCount) <
      ((handleDisperseSubvolReq backend0
        { baseReq with DisperseDataCount := 2, DisperseRedundancyCount := 1 }).1
        |>.DisperseCount) :=
  c4_disperse_redundancy_bound backend0
    { baseReq with DisperseDataCount := 2, DisperseRedundancyCount := 1 } _
    (by decide) rfl

/-- C8: max-brick-size validation: a set (positive) max brick size below the
minimum brick size fails; for the loop-back provisioner a max brick size above
the 100 GiB cap fails, and an unset (zero) max brick size is defaulted to
100 GiB; for any other provisioner neither the cap nor the default applies and
the stage leaves the request unchanged and succeeds. -/
theorem c8_max_brick_size_validation (req : VolCreateReq) :
    (0 < req.MaxBrickSize → req.MaxBrickSize < minBrickSize →
      checkMaxBrickSize req =
        (req, some ("invalid max-brick-size, Minimum size required is "
          ++ toString minBrickSize))) ∧
    (req.ProvisionerType = "loop" → minBrickSize ≤ req.MaxBrickSize →
      defaultMaxLoopBrickSize < req.MaxBrickSize →
      checkMaxBrickSize req =
        (req, some ("invalid max-brick-size, max brick size supported for loop back bricks is "
          ++ toString defaultMaxLoopBrickSize))) ∧
    (req.ProvisionerType = "loop" → req.MaxBrickSize = 0 →
      checkMaxBrickSize req = ({ req with MaxBrickSize := defaultMaxLoopBrickSize }, none)) ∧
    (req.ProvisionerType ≠ "loop" →
      ¬(0 < req.MaxBrickSize ∧ req.MaxBrickSize < minBrickSize) →
      checkMaxBrickSize req = (req, none)) := by
  refine ⟨fun h1 h2 => ?_, fun h1 h2 h3 => ?_, fun h1 h2 => ?_, fun h1 h2 => ?_⟩
  · simp [checkMaxBrickSize, h1, h2]
  · simp [checkMaxBrickSize, h1, h3, ProvisionerTypeLoop,
      show ¬(req.MaxBrickSize > 0 ∧ req.MaxBrickSize < minBrickSize) by omega]
  · simp [checkMaxBrickSize, h1, h2, ProvisionerTypeLoop,
      show ¬defaultMaxLoopBrickSize < (0 : Nat) by omega]
  · have hne : (req.ProvisionerType == ProvisionerTypeLoop) = false := by
      simp [ProvisionerTypeLoop]
      exact h1
    simp [checkMaxBrickSize, h2, hne]

/-- C8 witness: the loop-back defaulting case evaluated on a concrete
request. -/
theorem c8_max_brick_size_validation_witness :
    checkMaxBrickSize { baseReq with ProvisionerType := "loop" } =
      ({ baseReq with ProvisionerType := "loop", MaxBrickSize := defaultMaxLoopBrickSize },
        none) :=
  (c8_max_brick_size_validation { baseReq with ProvisionerType := "loop" }).2.2.1
    rfl rfl

/-- C9: `PlanBricks` checks the device inventory before any request
validation: with an empty inventory it returns the capacity error for every
request, however invalid, so no validation error can be observed. -/
theorem c9_empty_inventory_checked_first (B : Backend) (req : VolCreateReq) :
    PlanBricks B req [] =
      (req, some ("no devices registered or available for allocating bricks")) := rfl

/-- The Go `uint` conversion is the identity on values representable in the
signed range (helper). -/
theorem goUint64_eq (x : Int) (h0 : 0 ≤ x) (h1 : x < 2 ^ 64) :
    goUint64 x = x.toNat := by
  unfold goUint64
  rw [Int.emod_eq_of_lt h0 h1]

/-- The Go `int` conversion is the identity below `2 ^ 63` (helper). -/
theorem uintToInt_eq (n : Nat) (h : n < 2 ^ 63) : uintToInt n = (n : Int) := by
  unfold uintToInt
  rw [Nat.mod_eq_of_lt (lt_trans h (by norm_num)), if_pos h]

/-- C5 counterexample: the request `reqOv` is in the claim's scope (max brick
size set and exceeded by the requested size, validated above the minimum,
disperse resolution passing), yet the derivation does not set the distribute
count to the claimed ceiling (which would be 1): the `uint64` capacity product
2^62 × 4 wraps to zero and the source fails with an integer divide-by-zero. -/
theorem c5_counterexample :
    0 < reqOv.MaxBrickSize ∧ reqOv.MaxBrickSize < reqOv.Size ∧
    (deriveDistributeCount reqOv).2 =
      some ("runtime error: integer divide by zero") ∧
    (deriveDistributeCount reqOv).1.DistributeCount ≠
      ((specCeilDiv reqOv.Size (specSubvolCapacity reqOv) : Nat) : Int) :=
  ⟨by decide, by decide, by rfl, by decide⟩

/-- C5 (amended): provided the `uint64` capacity product
max-brick-size × disperse-data-count does not overflow (the proviso the
counterexample forces) and the request's `uint64`/`int` fields are in range:
when the max brick size is set (validated, hence at least the minimum brick
size) and the requested size exceeds it, the derived distribute count is the
ceiling of the requested size over the per-subvolume capacity
(max-brick-size × disperse-data-count when the disperse-data count is
positive, max-brick-size otherwise); the number of subvolumes is the
distribute count when positive and 1 otherwise, and the subvolume size is the
requested size divided (integer division) by that number. -/
theorem c5_distribute_count_derivation (req : VolCreateReq)
    (hmb : minBrickSize ≤ req.MaxBrickSize)
    (hsz : req.Size < 2 ^ 64)
    (hdd : req.DisperseDataCount < 2 ^ 63)
    (hov : req.MaxBrickSize * req.DisperseDataCount.toNat < 2 ^ 64)
    (ht : req.MaxBrickSize < req.Size) :
    ((deriveDistributeCount req).1.DistributeCount =
      ((specCeilDiv req.Size (specSubvolCapacity req) : Nat) : Int)) ∧
    (deriveDistributeCount req).2 = none ∧
    (∀ dc : Int, numSubvolsOf dc = if 0 < dc then dc else 1) ∧
    (∀ (sz : Nat) (ns : Int), 0 < ns → ns < 2 ^ 63 →
      subvolSizeOf sz ns = sz / ns.toNat) := by
  have hmbpos : 0 < req.MaxBrickSize := lt_of_lt_of_le (by decide) hmb
  have hcap2 : 2 ≤ specSubvolCapacity req := by
    unfold specSubvolCapacity
    split_ifs with hd
    · calc (2 : Nat) ≤ req.MaxBrickSize := le_trans (by decide) hmb
        _ = req.MaxBrickSize * 1 := by ring
        _ ≤ req.MaxBrickSize * req.DisperseDataCount.toNat :=
          Nat.mul_le_mul_left _ (by omega)
    · exact le_trans (by decide) hmb
  have hq63 : req.Size / specSubvolCapacity req < 2 ^ 63 := by
    rw [Nat.div_lt_iff_lt_mul (by omega)]
    calc req.Size < 2 ^ 64 := hsz
      _ = 2 ^ 63 * 2 := by norm_num
      _ ≤ 2 ^ 63 * specSubvolCapacity req := Nat.mul_le_mul_left _ hcap2
  have hmsv : (if req.DisperseDataCount > 0 then
      (req.MaxBrickSize * goUint64 req.DisperseDataCount) % 2 ^ 64
      else req.MaxBrickSize) = specSubvolCapacity req := by
    unfold specSubvolCapacity
    by_cases hd : 0 < req.DisperseDataCount
    · rw [if_pos hd, if_pos hd, goUint64_eq _ (le_of_lt hd) (lt_trans hdd (by norm_num)),
        Nat.mod_eq_of_lt hov]
    · rw [if_neg hd, if_neg hd]
  refine ⟨?_, ?_, fun dc => rfl, fun sz ns h0 h63 => ?_⟩
  · unfold deriveDistributeCount
    rw [if_pos (⟨hmbpos, ht⟩ : _ ∧ _)]
    simp only []
    rw [hmsv, if_neg (by omega : ¬specSubvolCapacity req = 0)]
    simp only []
    rw [specCeilDiv_eq_div_add _ _ (by omega), uintToInt_eq _ hq63]
    split_ifs with hr
    · push_cast
      ring
    · push_cast
      ring
  · unfold deriveDistributeCount
    rw [if_pos (⟨hmbpos, ht⟩ : _ ∧ _)]
    simp only []
    rw [hmsv, if_neg (by omega : ¬specSubvolCapacity req = 0)]
  · unfold subvolSizeOf
    by_cases h1 : ns > 1
    · rw [if_pos h1, goUint64_eq _ (by omega) (lt_trans h63 (by norm_num))]
    · rw [if_neg h1]
      have hns1 : ns.toNat = 1 := by omega
      rw [hns1, Nat.div_one]

/-- C5 witness: a 250 MiB request with a 100 MiB max brick size derives a
distribute count of 3 = ceil(250 / 100). -/
theorem c5_distribute_count_derivation_witness :
    (deriveDistributeCount { baseReq with Size := 250 * MiB, MaxBrickSize := 100 * MiB
      }).1.DistributeCount =
      ((specCeilDiv (250 * MiB) (specSubvolCapacity
        { baseReq with Size := 250 * MiB, MaxBrickSize := 100 * MiB }) : Nat) : Int) :=
  (c5_distribute_count_derivation
    { baseReq with Size := 250 * MiB, MaxBrickSize := 100 * MiB }
    (by decide) (by decide) (by decide) (by decide) (by decide)).1

/-- Total free space of a cons (helper). -/
theorem totalFree_cons (v : Vg) (l : List Vg) :
    totalFree (v :: l) = v.AvailableSize + totalFree l := by
  simp [totalFree]

/-- Placement fills all four placement fields with non-empty strings when the
chosen device has non-empty identification fields (helper). -/
theorem placeBrick_ok (loopProv : Bool) (b : BrickReq) (vg : Vg) (hv : VgOk vg) :
    PlacedOk (placeBrick loopProv b vg) := by
  obtain ⟨h1, h2, h3⟩ := hv
  refine ⟨h1, h2, h3, ?_⟩
  unfold placeBrick
  split_ifs
  · intro h
    have hl := congrArg String.length h
    simp [String.length_append] at hl
    exact absurd hl.2 (by decide)
  · intro h
    have hl := congrArg String.length h
    simp [String.length_append] at hl
    exact absurd hl.1.1.1 (by decide)

/-- Placement never changes a brick's total size (helper). -/
theorem placeBrick_TotalSize (loopProv : Bool) (b : BrickReq) (vg : Vg) :
    (placeBrick loopProv b vg).TotalSize = b.TotalSize := rfl

/-- Specification of a successful inner device scan (helper): the chosen
device is a member of the inventory, its zone is unused, it has enough space,
exactly `need` is consumed from the total free space, and every record of the
updated inventory keeps the identification fields of a record of the input
inventory. -/
theorem allocLoop_spec (fresh : Bool) (need : Nat) (zones : List String) :
    ∀ (vgs : List Vg) (c : Vg) (vgs' : List Vg),
      allocLoop fresh need zones vgs = some (c, vgs') →
      c ∈ vgs ∧ c.Zone ∉ zones ∧ need ≤ c.AvailableSize ∧
        totalFree vgs = totalFree vgs' + need ∧
        (∀ v' ∈ vgs', ∃ v ∈ vgs, v'.PeerID = v.PeerID ∧ v'.Name = v.Name ∧
          v'.Zone = v.Zone ∧ v'.Device = v.Device) := by
  intro vgs
  induction vgs with
  | nil => intro c vgs' h; simp [allocLoop] at h
  | cons vg rest ih =>
    intro c vgs' h
    unfold allocLoop at h
    split_ifs at h with hc
    · injection h with h1
      injection h1 with hA hB
      subst hA
      subst hB
      refine ⟨List.mem_cons_self _ _, hc.2.1, hc.1, ?_, ?_⟩
      · rw [totalFree_cons, totalFree_cons]
        simp only []
        omega
      · intro v' hv'
        rcases List.mem_cons.mp hv' with h | h
        · exact ⟨vg, List.mem_cons_self _ _, by subst h; exact ⟨rfl, rfl, rfl, rfl⟩⟩
        · exact ⟨v', List.mem_cons_of_mem _ h, rfl, rfl, rfl, rfl⟩
    · cases hm : allocLoop fresh need zones rest with
      | none => rw [hm] at h; simp at h
      | some p =>
        obtain ⟨c0, rest'⟩ := p
        rw [hm] at h
        injection h with h1
        injection h1 with hA hB
        subst hA
        subst hB
        obtain ⟨m1, m2, m3, m4, m5⟩ := ih c0 rest' hm
        refine ⟨List.mem_cons_of_mem _ m1, m2, m3, ?_, ?_⟩
        · rw [totalFree_cons, totalFree_cons, m4]
          omega
        · intro v' hv'
          rcases List.mem_cons.mp hv' with h | h
          · exact ⟨vg, List.mem_cons_self _ _, by subst h; exact ⟨rfl, rfl, rfl, rfl⟩⟩
          · obtain ⟨v, hv, he⟩ := m5 v' h
            exact ⟨v, List.mem_cons_of_mem _ hv, he⟩

/-- Identification-field transfer preserves `VgOk` over a whole inventory
(helper). -/
theorem vgok_transfer (vgs vgs' : List Vg)
    (hv : ∀ v ∈ vgs, VgOk v)
    (hid : ∀ v' ∈ vgs', ∃ v ∈ vgs, v'.PeerID = v.PeerID ∧ v'.Name = v.Name ∧
      v'.Zone = v.Zone ∧ v'.Device = v.Device) :
    ∀ v' ∈ vgs', VgOk v' := by
  intro v' hv'
  obtain ⟨v, hm, e1, e2, _, e4⟩ := hid v' hv'
  obtain ⟨k1, k2, k3⟩ := hv v hm
  exact ⟨e1 ▸ k1, e2 ▸ k2, e4 ▸ k3⟩

/-- A pass never counts more allocations than it has bricks (helper). -/
theorem allocPass_count_le (lp fresh : Bool) :
    ∀ (bricks : List BrickReq) (vgs : List Vg) (zones : List String),
      (allocPass lp fresh bricks vgs zones).count ≤ bricks.length := by
  intro bricks
  induction bricks with
  | nil => intro vgs zones; simp [allocPass]
  | cons b bs ih =>
    intro vgs zones
    unfold allocPass
    cases hm : allocLoop fresh b.TotalSize zones vgs with
    | none =>
      dsimp only
      exact Nat.le_succ_of_le (ih _ _)
    | some p =>
      obtain ⟨vg, vgs'⟩ := p
      dsimp only
      exact Nat.succ_le_succ (ih _ _)

/-- A pass preserves the number of bricks (helper). -/
theorem allocPass_length (lp fresh : Bool) :
    ∀ (bricks : List BrickReq) (vgs : List Vg) (zones : List String),
      (allocPass lp fresh bricks vgs zones).bricks.length = bricks.length := by
  intro bricks
  induction bricks with
  | nil => intro vgs zones; simp [allocPass]
  | cons b bs ih =>
    intro vgs zones
    unfold allocPass
    cases hm : allocLoop fresh b.TotalSize zones vgs with
    | none =>
      dsimp only
      simp [ih]
    | some p =>
      obtain ⟨vg, vgs'⟩ := p
      dsimp only
      simp [ih]

/-- A pass preserves the total sizes of the bricks (helper). -/
theorem allocPass_sizes (lp fresh : Bool) (s : Nat) :
    ∀ (bricks : List BrickReq) (vgs : List Vg) (zones : List String),
      (∀ b ∈ bricks, b.TotalSize = s) →
      ∀ b ∈ (allocPass lp fresh bricks vgs zones).bricks, b.TotalSize = s := by
  intro bricks
  induction bricks with
  | nil => intro vgs zones _ b hb; simp [allocPass] at hb
  | cons b bs ih =>
    intro vgs zones hs b' hb'
    unfold allocPass at hb'
    revert hb'
    cases hm : allocLoop fresh b.TotalSize zones vgs with
    | none =>
      dsimp only
      intro hb'
      rcases List.mem_cons.mp hb' with h | h
      · rw [h]; exact hs b (List.mem_cons_self _ _)
      · exact ih _ _ (fun x hx => hs x (List.mem_cons_of_mem _ hx)) _ h
    | some p =>
      obtain ⟨vg, vgs'⟩ := p
      dsimp only
      intro hb'
      rcases List.mem_cons.mp hb' with h | h
      · rw [h, placeBrick_TotalSize]
        exact hs b (List.mem_cons_self _ _)
      · exact ih _ _ (fun x hx => hs x (List.mem_cons_of_mem _ hx)) _ h

/-- When the scan fails for the common brick size, a whole pass of equal-size
bricks changes nothing (helper): all conditions are determined by the size,
so every later brick fails as well. -/
theorem allocPass_of_loop_fail (lp fresh : Bool) (s : Nat) :
    ∀ (bricks : List BrickReq) (vgs : List Vg) (zones : List String),
      allocLoop fresh s zones vgs = none →
      (∀ b ∈ bricks, b.TotalSize = s) →
      allocPass lp fresh bricks vgs zones = ⟨bricks, vgs, zones, 0, []⟩ := by
  intro bricks
  induction bricks with
  | nil => intro vgs zones _ _; rfl
  | cons b bs ih =>
    intro vgs zones hfail hs
    have hb : b.TotalSize = s := hs b (List.mem_cons_self _ _)
    unfold allocPass
    rw [hb, hfail]
    dsimp only
    rw [ih vgs zones hfail (fun x hx => hs x (List.mem_cons_of_mem _ hx))]

/-- Main pass invariant for equal-size bricks over a well-formed inventory
(helper): the placed bricks form a prefix of length `count` whose placement
fields are filled, the remaining suffix is untouched, and the updated
inventory and the chosen devices keep well-formed identification fields. -/
theorem allocPass_placed (lp fresh : Bool) (s : Nat) :
    ∀ (bricks : List BrickReq) (vgs : List Vg) (zones : List String),
      (∀ b ∈ bricks, b.TotalSize = s) → (∀ v ∈ vgs, VgOk v) →
      (∀ b ∈ (allocPass lp fresh bricks vgs zones).bricks.take
          (allocPass lp fresh bricks vgs zones).count, PlacedOk b) ∧
      (allocPass lp fresh bricks vgs zones).bricks.drop
          (allocPass lp fresh bricks vgs zones).count =
        bricks.drop (allocPass lp fresh bricks vgs zones).count ∧
      (∀ v ∈ (allocPass lp fresh bricks vgs zones).vgs, VgOk v) ∧
      (∀ c ∈ (allocPass lp fresh bricks vgs zones).chosen, VgOk c) := by
  intro bricks
  induction bricks with
  | nil =>
    intro vgs zones _ hv
    refine ⟨?_, rfl, hv, ?_⟩ <;> simp [allocPass]
  | cons b bs ih =>
    intro vgs zones hs hv
    have hb : b.TotalSize = s := hs b (List.mem_cons_self _ _)
    have hbs : ∀ x ∈ bs, x.TotalSize = s :=
      fun x hx => hs x (List.mem_cons_of_mem _ hx)
    unfold allocPass
    cases hm : allocLoop fresh b.TotalSize zones vgs with
    | none =>
      have hfail : allocLoop fresh s zones vgs = none := hb ▸ hm
      rw [allocPass_of_loop_fail lp fresh s bs vgs zones hfail hbs]
      dsimp only
      exact ⟨by simp, rfl, hv, by simp⟩
    | some p =>
      obtain ⟨vg, vgs'⟩ := p
      obtain ⟨m1, m2, m3, m4, m5⟩ := allocLoop_spec fresh b.TotalSize zones vgs vg vgs' hm
      have hv' : ∀ v ∈ vgs', VgOk v := vgok_transfer vgs vgs' hv m5
      obtain ⟨i1, i2, i3, i4⟩ := ih vgs' (vg.Zone :: zones) hbs hv'
      dsimp only
      refine ⟨?_, ?_, i3, ?_⟩
      · intro b' hb'
        rw [List.take_succ_cons] at hb'
        rcases List.mem_cons.mp hb' with h | h
        · rw [h]
          exact placeBrick_ok lp b vg (hv vg m1)
        · exact i1 b' h
      · rw [List.drop_succ_cons, List.drop_succ_cons]
        exact i2
      · intro c hc
        rcases List.mem_cons.mp hc with h | h
        · rw [h]; exact hv vg m1
        · exact i4 c h

/-- Zone bookkeeping of one pass (helper): the chosen devices occupy pairwise
distinct zones, none of them already in the zone-used set, and the final
zone-used set is exactly the chosen zones together with the initial set. -/
theorem allocPass_zones (lp fresh : Bool) :
    ∀ (bricks : List BrickReq) (vgs : List Vg) (zones : List String),
      ((allocPass lp fresh bricks vgs zones).chosen.map Vg.Zone).Nodup ∧
      (∀ z ∈ (allocPass lp fresh bricks vgs zones).chosen.map Vg.Zone, z ∉ zones) ∧
      (∀ z, z ∈ (allocPass lp fresh bricks vgs zones).zones ↔
        z ∈ (allocPass lp fresh bricks vgs zones).chosen.map Vg.Zone ∨ z ∈ zones) := by
  intro bricks
  induction bricks with
  | nil =>
    intro vgs zones
    refine ⟨?_, ?_, ?_⟩ <;> simp [allocPass]
  | cons b bs ih =>
    intro vgs zones
    unfold allocPass
    cases hm : allocLoop fresh b.TotalSize zones vgs with
    | none =>
      dsimp only
      exact ih vgs zones
    | some p =>
      obtain ⟨vg, vgs'⟩ := p
      obtain ⟨m1, m2, m3, m4, m5⟩ := allocLoop_spec fresh b.TotalSize zones vgs vg vgs' hm
      obtain ⟨i1, i2, i3⟩ := ih vgs' (vg.Zone :: zones)
      dsimp only
      refine ⟨?_, ?_, ?_⟩
      · rw [List.map_cons, List.nodup_cons]
        refine ⟨fun hin => ?_, i1⟩
        exact (i2 vg.Zone hin) (List.mem_cons_self _ _)
      · intro z hz
        rw [List.map_cons] at hz
        rcases List.mem_cons.mp hz with h | h
        · rw [h]; exact m2
        · intro hzz
          exact (i2 z h) (List.mem_cons_of_mem _ hzz)
      · intro z
        rw [List.map_cons]
        rw [i3 z]
        constructor
        · rintro (h | h)
          · exact Or.inl (List.mem_cons_of_mem _ h)
          · rcases List.mem_cons.mp h with h1 | h1
            · exact Or.inl (h1 ▸ List.mem_cons_self _ _)
            · exact Or.inr h1
        · rintro (h | h)
          · rcases List.mem_cons.mp h with h1 | h1
            · exact Or.inr (h1 ▸ List.mem_cons_self _ _)
            · exact Or.inl h1
          · exact Or.inr (List.mem_cons_of_mem _ h)

/-- Accounting of one pass over equal-size bricks (helper): exactly
`count × size` is consumed from the total free space. -/
theorem allocPass_sum (lp fresh : Bool) (s : Nat) :
    ∀ (bricks : List BrickReq) (vgs : List Vg) (zones : List String),
      (∀ b ∈ bricks, b.TotalSize = s) →
      totalFree vgs =
        totalFree (allocPass lp fresh bricks vgs zones).vgs +
          (allocPass lp fresh bricks vgs zones).count * s := by
  intro bricks
  induction bricks with
  | nil => intro vgs zones _; simp [allocPass]
  | cons b bs ih =>
    intro vgs zones hs
    have hb : b.TotalSize = s := hs b (List.mem_cons_self _ _)
    have hbs : ∀ x ∈ bs, x.TotalSize = s :=
      fun x hx => hs x (List.mem_cons_of_mem _ hx)
    unfold allocPass
    cases hm : allocLoop fresh b.TotalSize zones vgs with
    | none =>
      dsimp only
      exact ih vgs zones hbs
    | some p =>
      obtain ⟨vg, vgs'⟩ := p
      obtain ⟨m1, m2, m3, m4, m5⟩ := allocLoop_spec fresh b.TotalSize zones vgs vg vgs' hm
      have hrec := ih vgs' (vg.Zone :: zones) hbs
      dsimp only
      rw [Nat.succ_mul]
      omega

/-- Sum of a constant-valued map (helper). -/
theorem sum_map_const_of {α : Type} (f : α → Nat) (s : Nat) :
    ∀ (l : List α), (∀ x ∈ l, f x = s) → (l.map f).sum = l.length * s := by
  intro l
  induction l with
  | nil => intro _; simp
  | cons x xs ih =>
    intro h
    rw [List.map_cons, List.sum_cons, ih (fun y hy => h y (List.mem_cons_of_mem _ hy)),
      h x (List.mem_cons_self _ _), List.length_cons, Nat.succ_mul]
    omega

/-- Combined specification of a successful one-subvolume allocation over
equal-size bricks and a well-formed inventory (helper): every returned brick
is placed with non-empty fields, sizes and count are preserved, the inventory
stays well formed, exactly `count × size` free space is consumed, and the
chosen devices occupy pairwise distinct zones. -/
theorem allocSubvol_spec (lp : Bool) (s : Nat) (bricks : List BrickReq)
    (vgs : List Vg) (zones : List String) (res : SubvolAllocResult)
    (hs : ∀ b ∈ bricks, b.TotalSize = s) (hv : ∀ v ∈ vgs, VgOk v)
    (h : allocSubvol lp bricks vgs zones = some res) :
    (∀ b ∈ res.bricks, PlacedOk b) ∧
    (∀ b ∈ res.bricks, b.TotalSize = s) ∧
    res.bricks.length = bricks.length ∧
    (∀ v ∈ res.vgs, VgOk v) ∧
    totalFree vgs = totalFree res.vgs + bricks.length * s ∧
    (res.chosen.map Vg.Zone).Nodup := by
  unfold allocSubvol at h
  simp only [] at h
  obtain ⟨i1, i2, i3, i4⟩ := allocPass_placed lp true s bricks vgs zones hs hv
  have hlen1 := allocPass_length lp true bricks vgs zones
  have hcnt1 := allocPass_count_le lp true bricks vgs zones
  have hsz1 := allocPass_sizes lp true s bricks vgs zones hs
  have hsum1 := allocPass_sum lp true s bricks vgs zones hs
  obtain ⟨z1, z2, z3⟩ := allocPass_zones lp true bricks vgs zones
  set r1 := allocPass lp true bricks vgs zones with hr1
  have hd2 : ∀ b ∈ r1.bricks.drop r1.count, b.TotalSize = s := by
    rw [i2]
    intro b hb
    exact hs b (List.mem_of_mem_drop hb)
  obtain ⟨j1, j2, j3, j4⟩ :=
    allocPass_placed lp false s (r1.bricks.drop r1.count) r1.vgs r1.zones hd2 i3
  have hlen2 := allocPass_length lp false (r1.bricks.drop r1.count) r1.vgs r1.zones
  have hcnt2 := allocPass_count_le lp false (r1.bricks.drop r1.count) r1.vgs r1.zones
  have hsz2 := allocPass_sizes lp false s (r1.bricks.drop r1.count) r1.vgs r1.zones hd2
  have hsum2 := allocPass_sum lp false s (r1.bricks.drop r1.count) r1.vgs r1.zones hd2
  obtain ⟨w1, w2, w3⟩ := allocPass_zones lp false (r1.bricks.drop r1.count) r1.vgs r1.zones
  set r2 := allocPass lp false (r1.bricks.drop r1.count) r1.vgs r1.zones with hr2
  split_ifs at h with h1 h2
  · injection h with h'
    subst h'
    have htake : r1.bricks.take r1.count = r1.bricks := by
      rw [h1, ← hlen1]
      exact List.take_length _
    refine ⟨?_, hsz1, hlen1, i3, ?_, z1⟩
    · intro b hb
      dsimp only at hb
      exact i1 b (by rw [htake]; exact hb)
    · rw [hsum1, h1]
  · injection h with h'
    subst h'
    have hdl : (r1.bricks.drop r1.count).length = bricks.length - r1.count := by
      rw [List.length_drop, hlen1]
    have hc2 : r2.count = (r1.bricks.drop r1.count).length := by omega
    have htake2 : r2.bricks.take r2.count = r2.bricks := by
      rw [hc2, ← hlen2]
      exact List.take_length _
    refine ⟨?_, ?_, ?_, j3, ?_, ?_⟩
    · intro b hb
      dsimp only at hb
      rcases List.mem_append.mp hb with hmem | hmem
      · exact i1 b hmem
      · exact j1 b (by rw [htake2]; exact hmem)
    · intro b hb
      dsimp only at hb
      rcases List.mem_append.mp hb with hmem | hmem
      · exact hsz1 b (List.mem_of_mem_take hmem)
      · exact hsz2 b hmem
    · dsimp only
      rw [List.length_append, List.length_take, hlen2, hdl]
      omega
    · dsimp only
      have hmul : bricks.length * s = r1.count * s + r2.count * s := by
        rw [← Nat.add_mul, h2]
      omega
    · dsimp only
      rw [List.map_append, List.nodup_append]
      refine ⟨z1, w1, ?_⟩
      intro z hz hz2
      exact (w2 z hz2) ((z3 z).mpr (Or.inl hz))

/-- Combined specification of a successful whole-plan allocation (helper),
for any zone-overlap flag value: every brick of every returned subvolume is
placed with non-empty fields, the total consumed free space equals the total
size of the returned plan, the devices chosen for any single subvolume occupy
pairwise distinct zones, and the inventory stays well formed. -/
theorem allocSubvols_spec (lp overlap : Bool) :
    ∀ (svs : List SubvolReq) (vgs : List Vg) (zones : List String)
      (out : List SubvolReq × List Vg × List String × List (List Vg)),
      (∀ sv ∈ svs, ∃ s, ∀ b ∈ sv.Bricks, b.TotalSize = s) →
      (∀ v ∈ vgs, VgOk v) →
      allocSubvols lp overlap svs vgs zones = some out →
      (∀ sv ∈ out.1, ∀ b ∈ sv.Bricks, PlacedOk b) ∧
      totalFree vgs = totalFree out.2.1 + requiredTotal out.1 ∧
      (∀ ch ∈ out.2.2.2, (ch.map Vg.Zone).Nodup) ∧
      (∀ v ∈ out.2.1, VgOk v) := by
  intro svs
  induction svs with
  | nil =>
    intro vgs zones out _ hv h
    unfold allocSubvols at h
    injection h with h'
    subst h'
    refine ⟨by simp, by simp [requiredTotal], by simp, hv⟩
  | cons sv svs ih =>
    intro vgs zones out hsv hv h
    unfold allocSubvols at h
    simp only [] at h
    cases hm1 : allocSubvol lp sv.Bricks vgs (subvolStartZones overlap zones) with
    | none => rw [hm1] at h; exact Option.noConfusion h
    | some r =>
      rw [hm1] at h
      dsimp only at h
      cases hm2 : allocSubvols lp overlap svs r.vgs r.zones with
      | none => rw [hm2] at h; exact Option.noConfusion h
      | some out' =>
        rw [hm2] at h
        obtain ⟨svs', vgs', zones', chosens⟩ := out'
        dsimp only at h
        injection h with h'
        subst h'
        obtain ⟨s, hs⟩ := hsv sv (List.mem_cons_self _ _)
        obtain ⟨p1, p2, p3, p4, p5, p6⟩ :=
          allocSubvol_spec lp s sv.Bricks vgs (subvolStartZones overlap zones) r hs hv hm1
        obtain ⟨q1, q2, q3, q4⟩ := ih r.vgs r.zones (svs', vgs', zones', chosens)
          (fun x hx => hsv x (List.mem_cons_of_mem _ hx)) p4 hm2
        dsimp only at q1 q2 q3 q4 ⊢
        refine ⟨?_, ?_, ?_, q4⟩
        · intro sv' hsv' b hb
          rcases List.mem_cons.mp hsv' with hh | hh
          · rw [hh] at hb
            dsimp only at hb
            exact p1 b hb
          · exact q1 sv' hh b hb
        · have hreq : requiredTotal ({ sv with Bricks := r.bricks } :: svs') =
              (r.bricks.map BrickReq.TotalSize).sum + requiredTotal svs' := by
            simp [requiredTotal]
          have hsum : (r.bricks.map BrickReq.TotalSize).sum = sv.Bricks.length * s := by
            rw [sum_map_const_of BrickReq.TotalSize s r.bricks p2, p3]
          rw [hreq, hsum]
          omega
        · intro ch hch
          rcases List.mem_cons.mp hch with hh | hh
          · rw [hh]
            exact p6
          · exact q3 ch hh

/-- Every registered layout strategy emits equal-size bricks (helper; per the
spec-modelled strategies, the per-index brick size is constant). -/
theorem subvolPlanners_const_size (req : VolCreateReq) (sz : Nat) (t : String)
    (p : SubvolPlanner) (h : subvolPlanners req sz t = some p) :
    ∃ c, ∀ j, p.BrickSize j = c := by
  unfold subvolPlanners at h
  split at h <;>
    first
    | exact Option.noConfusion h
    | (injection h with h'
       subst h'
       exact ⟨_, fun j => rfl⟩)

/-- Per-brick facts of the generated brick list of one subvolume (helper):
every brick comes from `mkBrick` at some strategy-size that passed the
minimum-size check. -/
theorem buildSubvolBricks_spec (B : Backend) (req : VolCreateReq) (root : String)
    (p : SubvolPlanner) (i : Nat) :
    ∀ (n j : Nat) (out : List BrickReq),
      buildSubvolBricks B req root p i n j = .ok out →
      ∀ b ∈ out, ∃ s0, minBrickSize ≤ s0 ∧ (∃ jj, p.BrickSize jj = s0) ∧
        b.Size = B.NormalizeSize s0 ∧
        b.TotalSize = B.NormalizeSize (req.SnapshotReserveFactor s0) +
          B.GetPoolMetadataSize (req.SnapshotReserveFactor s0) := by
  intro n
  induction n with
  | zero =>
    intro j out h b hb
    injection h with h'
    subst h'
    simp at hb
  | succ n ih =>
    intro j out h b hb
    unfold buildSubvolBricks at h
    simp only [] at h
    split_ifs at h with hsmall
    revert h
    cases hm : buildSubvolBricks B req root p i n (j + 1) with
    | error e => intro h; exact Except.noConfusion h
    | ok rest =>
      intro h
      injection h with h'
      subst h'
      rcases List.mem_cons.mp hb with hh | hh
      · refine ⟨p.BrickSize j, by omega, ⟨j, rfl⟩, ?_, ?_⟩ <;> rw [hh] <;> rfl
      · exact ih (j + 1) rest hm b hh

/-- Every subvolume of the generated layout carries a brick list produced by
the inner loop (helper). -/
theorem buildSubvols_bricks (B : Backend) (req : VolCreateReq) (root : String)
    (p : SubvolPlanner) :
    ∀ (n i : Nat) (out : List SubvolReq),
      buildSubvols B req root p n i = .ok out →
      ∀ sv ∈ out, ∃ m, buildSubvolBricks B req root p m p.BricksCount 0 = .ok sv.Bricks := by
  intro n
  induction n with
  | zero =>
    intro i out h sv hsv
    injection h with h'
    subst h'
    simp at hsv
  | succ n ih =>
    intro i out h sv hsv
    unfold buildSubvols at h
    revert h
    cases hm1 : buildSubvolBricks B req root p i p.BricksCount 0 with
    | error e => intro h; exact Except.noConfusion h
    | ok bricks =>
      cases hm2 : buildSubvols B req root p n (i + 1) with
      | error e => intro h; exact Except.noConfusion h
      | ok rest =>
        intro h
        injection h with h'
        subst h'
        rcases List.mem_cons.mp hsv with hh | hh
        · exact ⟨i, by rw [hh]; exact hm1⟩
        · exact ih (i + 1) rest hm2 sv hh

/-- A successful stage sequencing passes a successful first stage through
(helper). -/
theorem stageThen_eq_ok (x : VolCreateReq × Option String)
    (f : VolCreateReq → VolCreateReq × Except String (List SubvolReq))
    (req' : VolCreateReq) (svs : List SubvolReq)
    (h : stageThen x f = (req', Except.ok svs)) :
    x.2 = none ∧ f x.1 = (req', Except.ok svs) := by
  obtain ⟨r, o⟩ := x
  cases o with
  | none => exact ⟨rfl, h⟩
  | some e =>
    dsimp only [stageThen] at h
    simp at h

/-- Stage sequencing preserves any request field that both stages preserve;
stated for the `Subvols` output field (helper). -/
theorem stageThen_fst_subvols (x : VolCreateReq × Option String)
    (f : VolCreateReq → VolCreateReq × Except String (List SubvolReq))
    (hf : ∀ r, (f r).1.Subvols = r.Subvols) :
    (stageThen x f).1.Subvols = x.1.Subvols := by
  obtain ⟨r, o⟩ := x
  cases o with
  | none => exact hf r
  | some e => rfl

/-- The replicate handler never touches the `Subvols` field (helper). -/
theorem handleReplicaSubvolReq_Subvols (req : VolCreateReq) :
    (handleReplicaSubvolReq req).1.Subvols = req.Subvols := by
  unfold handleReplicaSubvolReq
  simp only []
  split_ifs <;> rfl

/-- The disperse handler never touches the `Subvols` field (helper). -/
theorem handleDisperseSubvolReq_Subvols (B : Backend) (req : VolCreateReq) :
    (handleDisperseSubvolReq B req).1.Subvols = req.Subvols := by
  unfold handleDisperseSubvolReq
  simp only []
  split_ifs <;> rfl

/-- The max-brick-size validation never touches the `Subvols` field
(helper). -/
theorem checkMaxBrickSize_Subvols (req : VolCreateReq) :
    (checkMaxBrickSize req).1.Subvols = req.Subvols := by
  unfold checkMaxBrickSize
  split_ifs <;> rfl

/-- The distribute-count derivation never touches the `Subvols` field
(helper). -/
theorem deriveDistributeCount_Subvols (req : VolCreateReq) :
    (deriveDistributeCount req).1.Subvols = req.Subvols := by
  unfold deriveDistributeCount
  simp only []
  split_ifs <;> rfl

/-- Layout generation never touches the `Subvols` field, whether it succeeds
or fails (helper). -/
theorem getBricksLayout_Subvols (B : Backend) (req : VolCreateReq) :
    (getBricksLayout B req).1.Subvols = req.Subvols := by
  unfold getBricksLayout
  simp only []
  rw [stageThen_fst_subvols]
  · rw [handleReplicaSubvolReq_Subvols]
  · intro r1
    rw [stageThen_fst_subvols]
    · exact handleDisperseSubvolReq_Subvols B r1
    · intro r2
      rw [stageThen_fst_subvols]
      · exact checkMaxBrickSize_Subvols r2
      · intro r3
        rw [stageThen_fst_subvols]
        · exact deriveDistributeCount_Subvols r3
        · intro r4
          dsimp only
          cases subvolPlanners r4 (subvolSizeOf r4.Size (numSubvolsOf r4.DistributeCount))
            r4.SubvolType <;> rfl

/-- Successful planner dispatch and layout build, isolated from the stage
chain (helper). -/
theorem layoutFinal_ok (B : Backend) (r req' : VolCreateReq) (root : String)
    (svs : List SubvolReq)
    (h : (match subvolPlanners r (subvolSizeOf r.Size (numSubvolsOf r.DistributeCount))
          r.SubvolType with
        | none => (r, Except.error ("subvolume type not supported"))
        | some planner =>
          (r, buildSubvols B r root planner (numSubvolsOf r.DistributeCount).toNat 0)) =
      (req', Except.ok svs)) :
    ∃ planner,
      subvolPlanners r (subvolSizeOf r.Size (numSubvolsOf r.DistributeCount)) r.SubvolType =
        some planner ∧
      buildSubvols B r root planner (numSubvolsOf r.DistributeCount).toNat 0 =
        Except.ok svs ∧
      req' = r := by
  revert h
  cases hp : subvolPlanners r (subvolSizeOf r.Size (numSubvolsOf r.DistributeCount))
      r.SubvolType with
  | none => intro h; simp at h
  | some planner =>
    intro h
    injection h with hA hB
    exact ⟨planner, rfl, hB, hA.symm⟩

/-- Per-brick facts of a successfully generated layout (helper): within each
subvolume all bricks share one total size, and every brick's nominal size is
the normalization of a strategy size that passed the minimum-size check. -/
theorem getBricksLayout_ok_spec (B : Backend) (req req' : VolCreateReq)
    (svs : List SubvolReq) (h : getBricksLayout B req = (req', Except.ok svs)) :
    (∀ sv ∈ svs, ∃ s, ∀ b ∈ sv.Bricks, b.TotalSize = s) ∧
    (∀ sv ∈ svs, ∀ b ∈ sv.Bricks, ∃ s0, minBrickSize ≤ s0 ∧
      b.Size = B.NormalizeSize s0) := by
  unfold getBricksLayout at h
  simp only [] at h
  obtain ⟨e1, h⟩ := stageThen_eq_ok _ _ _ _ h
  obtain ⟨e2, h⟩ := stageThen_eq_ok _ _ _ _ h
  obtain ⟨e3, h⟩ := stageThen_eq_ok _ _ _ _ h
  obtain ⟨e4, h⟩ := stageThen_eq_ok _ _ _ _ h
  obtain ⟨planner, hp, hb, hr⟩ := layoutFinal_ok _ _ _ _ _ h
  obtain ⟨c, hc⟩ := subvolPlanners_const_size _ _ _ _ hp
  constructor
  · intro sv hsv
    obtain ⟨m, hm⟩ := buildSubvols_bricks _ _ _ _ _ _ _ hb sv hsv
    refine ⟨B.NormalizeSize ((deriveDistributeCount
        (checkMaxBrickSize (handleDisperseSubvolReq B (handleReplicaSubvolReq
          { req with SubvolType := "distribute" }).1).1).1).1.SnapshotReserveFactor c) +
      B.GetPoolMetadataSize ((deriveDistributeCount
        (checkMaxBrickSize (handleDisperseSubvolReq B (handleReplicaSubvolReq
          { req with SubvolType := "distribute" }).1).1).1).1.SnapshotReserveFactor c), ?_⟩
    intro b hbk
    obtain ⟨s0, _, ⟨jj, hjj⟩, _, ht⟩ := buildSubvolBricks_spec _ _ _ _ _ _ _ _ hm b hbk
    rw [ht, ← hjj, hc jj]
  · intro sv hsv b hbk
    obtain ⟨m, hm⟩ := buildSubvols_bricks _ _ _ _ _ _ _ hb sv hsv
    obtain ⟨s0, hmin, _, hsz, _⟩ := buildSubvolBricks_spec _ _ _ _ _ _ _ _ hm b hbk
    exact ⟨s0, hmin, hsz⟩

/-- Decomposition of a successful `PlanBricks` call (helper): the inventory is
non-empty, the layout was generated, the allocator succeeded, and the output
request is the layout request with the allocated subvolumes filled in. -/
theorem PlanBricks_ok_spec (B : Backend) (req req' : VolCreateReq) (vgs : List Vg)
    (h : PlanBricks B req vgs = (req', none)) :
    ∃ req1 svs out,
      getBricksLayout B req = (req1, Except.ok svs) ∧
      allocSubvols (req1.ProvisionerType == ProvisionerTypeLoop)
        req1.SubvolZonesOverlap svs vgs [] = some out ∧
      req' = { req1 with Subvols := out.1 } := by
  unfold PlanBricks at h
  split_ifs at h with h0
  · simp at h
  · cases hg : getBricksLayout B req with
    | mk req1 res =>
      rw [hg] at h
      cases res with
      | error e => simp at h
      | ok svs =>
        dsimp only at h
        cases ha : allocSubvols (req1.ProvisionerType == ProvisionerTypeLoop)
            req1.SubvolZonesOverlap svs vgs [] with
        | none =>
          rw [ha] at h
          simp at h
        | some out =>
          rw [ha] at h
          dsimp only at h
          injection h with hA hB
          exact ⟨req1, svs, out, rfl, ha, hA.symm⟩

/-- On every failing `PlanBricks` call the request's `Subvols` field is
unchanged (helper). -/
theorem PlanBricks_err_subvols (B : Backend) (req req' : VolCreateReq)
    (vgs : List Vg) (e : String) (h : PlanBricks B req vgs = (req', some e)) :
    req'.Subvols = req.Subvols := by
  unfold PlanBricks at h
  split_ifs at h with h0
  · injection h with hA hB
    rw [← hA]
  · cases hg : getBricksLayout B req with
    | mk req1 res =>
      rw [hg] at h
      have hpres : req1.Subvols = req.Subvols := by
        have hs := getBricksLayout_Subvols B req
        rw [hg] at hs
        exact hs
      cases res with
      | error e' =>
        dsimp only at h
        injection h with hA hB
        rw [← hA]
        exact hpres
      | ok svs =>
        dsimp only at h
        cases ha : allocSubvols (req1.ProvisionerType == ProvisionerTypeLoop)
            req1.SubvolZonesOverlap svs vgs [] with
        | none =>
          rw [ha] at h
          dsimp only at h
          injection h with hA hB
          rw [← hA]
          exact hpres
        | some out =>
          rw [ha] at h
          simp at h

/-- Accounting of one successful subvolume allocation over equal-size bricks
(helper, needing no inventory well-formedness): sizes and count are preserved
and exactly `count × size` free space is consumed. -/
theorem allocSubvol_sum (lp : Bool) (s : Nat) (bricks : List BrickReq)
    (vgs : List Vg) (zones : List String) (res : SubvolAllocResult)
    (hs : ∀ b ∈ bricks, b.TotalSize = s)
    (h : allocSubvol lp bricks vgs zones = some res) :
    (∀ b ∈ res.bricks, b.TotalSize = s) ∧
    res.bricks.length = bricks.length ∧
    totalFree vgs = totalFree res.vgs + bricks.length * s := by
  unfold allocSubvol at h
  simp only [] at h
  have hlen1 := allocPass_length lp true bricks vgs zones
  have hcnt1 := allocPass_count_le lp true bricks vgs zones
  have hsz1 := allocPass_sizes lp true s bricks vgs zones hs
  have hsum1 := allocPass_sum lp true s bricks vgs zones hs
  set r1 := allocPass lp true bricks vgs zones with hr1
  have hd2 : ∀ b ∈ r1.bricks.drop r1.count, b.TotalSize = s :=
    fun b hb => hsz1 b (List.mem_of_mem_drop hb)
  have hlen2 := allocPass_length lp false (r1.bricks.drop r1.count) r1.vgs r1.zones
  have hcnt2 := allocPass_count_le lp false (r1.bricks.drop r1.count) r1.vgs r1.zones
  have hsz2 := allocPass_sizes lp false s (r1.bricks.drop r1.count) r1.vgs r1.zones hd2
  have hsum2 := allocPass_sum lp false s (r1.bricks.drop r1.count) r1.vgs r1.zones hd2
  set r2 := allocPass lp false (r1.bricks.drop r1.count) r1.vgs r1.zones with hr2
  split_ifs at h with h1 h2
  · injection h with h'
    subst h'
    refine ⟨hsz1, hlen1, ?_⟩
    rw [hsum1, h1]
  · injection h with h'
    subst h'
    have hdl : (r1.bricks.drop r1.count).length = bricks.length - r1.count := by
      rw [List.length_drop, hlen1]
    refine ⟨?_, ?_, ?_⟩
    · intro b hb
      dsimp only at hb
      rcases List.mem_append.mp hb with hmem | hmem
      · exact hsz1 b (List.mem_of_mem_take hmem)
      · exact hsz2 b hmem
    · dsimp only
      rw [List.length_append, List.length_take, hlen2, hdl]
      omega
    · dsimp only
      have hmul : bricks.length * s = r1.count * s + r2.count * s := by
        rw [← Nat.add_mul, h2]
      omega

/-- Accounting of a successful whole-plan allocation (helper): the consumed
free space is exactly the total size of the returned plan. -/
theorem allocSubvols_sum (lp overlap : Bool) :
    ∀ (svs : List SubvolReq) (vgs : List Vg) (zones : List String)
      (out : List SubvolReq × List Vg × List String × List (List Vg)),
      (∀ sv ∈ svs, ∃ s, ∀ b ∈ sv.Bricks, b.TotalSize = s) →
      allocSubvols lp overlap svs vgs zones = some out →
      totalFree vgs = totalFree out.2.1 + requiredTotal out.1 := by
  intro svs
  induction svs with
  | nil =>
    intro vgs zones out _ h
    unfold allocSubvols at h
    injection h with h'
    subst h'
    simp [requiredTotal]
  | cons sv svs ih =>
    intro vgs zones out hsv h
    unfold allocSubvols at h
    simp only [] at h
    cases hm1 : allocSubvol lp sv.Bricks vgs (subvolStartZones overlap zones) with
    | none => rw [hm1] at h; exact Option.noConfusion h
    | some r =>
      rw [hm1] at h
      dsimp only at h
      cases hm2 : allocSubvols lp overlap svs r.vgs r.zones with
      | none => rw [hm2] at h; exact Option.noConfusion h
      | some out' =>
        rw [hm2] at h
        obtain ⟨svs', vgs', zones', chosens⟩ := out'
        dsimp only at h
        injection h with h'
        subst h'
        obtain ⟨s, hs⟩ := hsv sv (List.mem_cons_self _ _)
        obtain ⟨p2, p3, p5⟩ :=
          allocSubvol_sum lp s sv.Bricks vgs (subvolStartZones overlap zones) r hs hm1
        have q2 := ih r.vgs r.zones (svs', vgs', zones', chosens)
          (fun x hx => hsv x (List.mem_cons_of_mem _ hx)) hm2
        dsimp only at q2 ⊢
        have hreq : requiredTotal ({ sv with Bricks := r.bricks } :: svs') =
            (r.bricks.map BrickReq.TotalSize).sum + requiredTotal svs' := by
          simp [requiredTotal]
        have hsum : (r.bricks.map BrickReq.TotalSize).sum = sv.Bricks.length * s := by
          rw [sum_map_const_of BrickReq.TotalSize s r.bricks p2, p3]
        rw [hreq, hsum]
        omega

/-- The devices chosen for one subvolume occupy pairwise distinct zones
(helper, unconditional). -/
theorem allocSubvol_zones (lp : Bool) (bricks : List BrickReq) (vgs : List Vg)
    (zones : List String) (res : SubvolAllocResult)
    (h : allocSubvol lp bricks vgs zones = some res) :
    (res.chosen.map Vg.Zone).Nodup := by
  unfold allocSubvol at h
  simp only [] at h
  obtain ⟨z1, z2, z3⟩ := allocPass_zones lp true bricks vgs zones
  set r1 := allocPass lp true bricks vgs zones with hr1
  obtain ⟨w1, w2, w3⟩ := allocPass_zones lp false (r1.bricks.drop r1.count) r1.vgs r1.zones
  set r2 := allocPass lp false (r1.bricks.drop r1.count) r1.vgs r1.zones with hr2
  split_ifs at h with h1 h2
  · injection h with h'
    subst h'
    exact z1
  · injection h with h'
    subst h'
    dsimp only
    rw [List.map_append, List.nodup_append]
    refine ⟨z1, w1, ?_⟩
    intro z hz hz2
    exact (w2 z hz2) ((z3 z).mpr (Or.inl hz))

/-- Per-subvolume zone distinctness of a successful whole-plan allocation,
for any zone-overlap flag (helper). -/
theorem allocSubvols_zones (lp overlap : Bool) :
    ∀ (svs : List SubvolReq) (vgs : List Vg) (zones : List String)
      (out : List SubvolReq × List Vg × List String × List (List Vg)),
      allocSubvols lp overlap svs vgs zones = some out →
      ∀ ch ∈ out.2.2.2, (ch.map Vg.Zone).Nodup := by
  intro svs
  induction svs with
  | nil =>
    intro vgs zones out h ch hch
    unfold allocSubvols at h
    injection h with h'
    subst h'
    simp at hch
  | cons sv svs ih =>
    intro vgs zones out h ch hch
    unfold allocSubvols at h
    simp only [] at h
    cases hm1 : allocSubvol lp sv.Bricks vgs (subvolStartZones overlap zones) with
    | none => rw [hm1] at h; exact Option.noConfusion h
    | some r =>
      rw [hm1] at h
      dsimp only at h
      cases hm2 : allocSubvols lp overlap svs r.vgs r.zones with
      | none => rw [hm2] at h; exact Option.noConfusion h
      | some out' =>
        rw [hm2] at h
        obtain ⟨svs', vgs', zones', chosens⟩ := out'
        dsimp only at h
        injection h with h'
        subst h'
        dsimp only at hch
        rcases List.mem_cons.mp hch with hh | hh
        · rw [hh]
          exact allocSubvol_zones lp sv.Bricks vgs (subvolStartZones overlap zones) r hm1
        · exact ih r.vgs r.zones (svs', vgs', zones', chosens) hm2 ch hh

/-- C1: on every successful `PlanBricks` call over an inventory whose records
carry non-empty identification fields, every brick of every subvolume of the
returned plan has all four placement fields non-empty; on every failing call
the request's subvolumes field is unchanged — no partial plan is returned. -/
theorem c1_all_bricks_placed (B : Backend) (req : VolCreateReq) (vgs : List Vg)
    (hvg : ∀ v ∈ vgs, VgOk v) :
    (∀ req', PlanBricks B req vgs = (req', none) →
      ∀ sv ∈ req'.Subvols, ∀ b ∈ sv.Bricks, PlacedOk b) ∧
    (∀ req' e, PlanBricks B req vgs = (req', some e) →
      req'.Subvols = req.Subvols) := by
  constructor
  · intro req' h
    obtain ⟨req1, svs, out, hg, ha, hreq⟩ := PlanBricks_ok_spec B req req' vgs h
    obtain ⟨hsizes, -⟩ := getBricksLayout_ok_spec B req req1 svs hg
    obtain ⟨p1, -, -, -⟩ := allocSubvols_spec _ _ svs vgs [] out hsizes hvg ha
    subst hreq
    intro sv hsv b hb
    exact p1 sv hsv b hb
  · intro req' e h
    exact PlanBricks_err_subvols B req req' vgs e h

/-- C1 witness: the concrete 20 MiB plan on the one-device inventory succeeds
and its brick carries non-empty placement fields. -/
theorem c1_all_bricks_placed_witness : PlacedOk brickW0 :=
  (c1_all_bricks_placed backend0 reqW [vg0]
    (fun v hv => by rw [List.mem_singleton.mp hv]; refine ⟨?_, ?_, ?_⟩ <;> decide)).1
    planW.1 (by rfl) svW0 (List.Mem.head _) brickW0 (List.Mem.head _)

/-- C3: on every successful `PlanBricks` call with the zone-overlap flag
unset, the allocator run it contains chose, for each subvolume, devices with
pairwise distinct zones — no two bricks of one subvolume are placed in the
same zone. -/
theorem c3_no_zone_sharing (B : Backend) (req req' : VolCreateReq)
    (vgs : List Vg) (_hov : req.SubvolZonesOverlap = false)
    (h : PlanBricks B req vgs = (req', none)) :
    ∃ req1 svs out,
      getBricksLayout B req = (req1, Except.ok svs) ∧
      allocSubvols (req1.ProvisionerType == ProvisionerTypeLoop)
        req1.SubvolZonesOverlap svs vgs [] = some out ∧
      req'.Subvols = out.1 ∧
      ∀ ch ∈ out.2.2.2, (ch.map Vg.Zone).Nodup := by
  obtain ⟨req1, svs, out, hg, ha, hreq⟩ := PlanBricks_ok_spec B req req' vgs h
  subst hreq
  exact ⟨req1, svs, out, hg, ha, rfl,
    allocSubvols_zones _ _ svs vgs [] out ha⟩

/-- C3 witness: the concrete plan decomposes with pairwise distinct zones per
subvolume. -/
theorem c3_no_zone_sharing_witness :
    ∃ req1 svs out,
      getBricksLayout backend0 reqW = (req1, Except.ok svs) ∧
      allocSubvols (req1.ProvisionerType == ProvisionerTypeLoop)
        req1.SubvolZonesOverlap svs [vg0] [] = some out ∧
      planW.1.Subvols = out.1 ∧
      ∀ ch ∈ out.2.2.2, (ch.map Vg.Zone).Nodup :=
  c3_no_zone_sharing backend0 reqW planW.1 [vg0] (by rfl) (by rfl)

/-- C6: whenever layout generation succeeds, every brick's nominal size is the
backend normalization of a strategy size that passed the minimum-size check;
so when normalization preserves the 20 MiB lower bound (the backend rounds to
a granularity dividing 20 MiB), every brick's nominal size is at least the
minimum brick size.  A strategy size below the minimum makes generation fail
instead. -/
theorem c6_min_brick_size (B : Backend) (req req' : VolCreateReq)
    (svs : List SubvolReq)
    (h : getBricksLayout B req = (req', Except.ok svs))
    (hn : ∀ x, minBrickSize ≤ x → minBrickSize ≤ B.NormalizeSize x) :
    ∀ sv ∈ svs, ∀ b ∈ sv.Bricks, minBrickSize ≤ b.Size := by
  intro sv hsv b hb
  obtain ⟨-, h2⟩ := getBricksLayout_ok_spec B req req' svs h
  obtain ⟨s0, hmin, hsz⟩ := h2 sv hsv b hb
  rw [hsz]
  exact hn s0 hmin

/-- C6 witness: the concrete 20 MiB layout succeeds and its brick has nominal
size at least the minimum brick size. -/
theorem c6_min_brick_size_witness : minBrickSize ≤ brickW6.Size :=
  c6_min_brick_size backend0 reqW layoutW.1 svsW (by rfl) (fun _ hx => hx)
    svW6 (List.Mem.head _) brickW6 (List.Mem.head _)

/-- C7: `PlanBricks` fails with the capacity error on an empty inventory; on
success the plan's total required space never exceeds the inventory's total
free space (equivalently, free space short of the requirement forces failure);
and every failing call leaves the request's subvolumes field unchanged. -/
theorem c7_capacity_errors (B : Backend) :
    (∀ req, PlanBricks B req [] =
      (req, some ("no devices registered or available for allocating bricks"))) ∧
    (∀ req req' vgs, PlanBricks B req vgs = (req', none) →
      requiredTotal req'.Subvols ≤ totalFree vgs) ∧
    (∀ req req' vgs e, PlanBricks B req vgs = (req', some e) →
      req'.Subvols = req.Subvols) := by
  refine ⟨fun req => rfl, ?_, fun req req' vgs e h => PlanBricks_err_subvols B req req' vgs e h⟩
  intro req req' vgs h
  obtain ⟨req1, svs, out, hg, ha, hreq⟩ := PlanBricks_ok_spec B req req' vgs h
  obtain ⟨hsizes, -⟩ := getBricksLayout_ok_spec B req req1 svs hg
  have hsum := allocSubvols_sum _ _ svs vgs [] out hsizes ha
  subst hreq
  dsimp only
  omega

/-- C7 witness: on the concrete successful plan the required total is within
the inventory's free space. -/
theorem c7_capacity_errors_witness :
    requiredTotal planW.1.Subvols ≤ totalFree [vg0] :=
  (c7_capacity_errors backend0).2.1 reqW planW.1 [vg0] (by rfl)

/-- C10: for any zone-overlap flag value, a successful allocator run chooses,
within each single subvolume, devices with pairwise distinct zones — the flag
never allows zone reuse inside one subvolume; the flag controls only the
zone-used set a subvolume starts from, which is reset to empty exactly when
the flag is set and carried over otherwise. -/
theorem c10_overlap_flag_semantics :
    (∀ (lp overlap : Bool) (svs : List SubvolReq) (vgs : List Vg)
      (zones : List String) (out : List SubvolReq × List Vg × List String × List (List Vg)),
      allocSubvols lp overlap svs vgs zones = some out →
      ∀ ch ∈ out.2.2.2, (ch.map Vg.Zone).Nodup) ∧
    (∀ zones : List String,
      subvolStartZones true zones = [] ∧ subvolStartZones false zones = zones) := by
  exact ⟨fun lp overlap svs vgs zones out h => allocSubvols_zones lp overlap svs vgs zones out h,
    fun zones => ⟨rfl, rfl⟩⟩

/-- C10 witness: a concrete allocation with the zone-overlap flag set still
has pairwise distinct zones within its subvolume. -/
theorem c10_overlap_flag_semantics_witness :
    ∀ ch ∈ outW.2.2.2, (ch.map Vg.Zone).Nodup :=
  c10_overlap_flag_semantics.1 false true [sv0] [vg0] [] outW (by rfl)
